import Mathlib

set_option maxRecDepth 100000

/-! Shallow embedding of the ColorTrace color-extraction core.

Strings from the JavaScript source are modelled as Lean `String`s, with list-of-char
helpers (`List Char`) used internally; JS numbers appearing here are integers
(pixel channels, counts), modelled as `Nat`/`Int`; `NaN` results of `parseInt`
are modelled as `none`.  Rational arithmetic (`ℚ`) models the exact values of the
floating-point percentage computations; for the magnitudes involved the double
computations round to the same two-decimal strings. -/

/-- Numeric value of a hexadecimal digit character, as accepted by JS parseInt(_, 16). -/
def hexDigitVal (c : Char) : Option Nat :=
  if '0' ≤ c ∧ c ≤ '9' then some (c.toNat - 48)
  else if 'a' ≤ c ∧ c ≤ 'f' then some (c.toNat - 87)
  else if 'A' ≤ c ∧ c ≤ 'F' then some (c.toNat - 55)
  else none

def isHexDigit (c : Char) : Bool := (hexDigitVal c).isSome

def hexRunAux : List Char → Nat → Nat
  | [], acc => acc
  | c :: r, acc =>
    match hexDigitVal c with
    | some d => hexRunAux r (acc * 16 + d)
    | none => acc

/-- Maximal leading run of hex digits, `none` when the first character is not a hex digit. -/
def hexRun : List Char → Option Nat
  | [] => none
  | c :: r =>
    match hexDigitVal c with
    | some d => some (hexRunAux r d)
    | none => none

/-- JS `0x`/`0X` stripping performed by parseInt with radix 16. -/
def strip0x (cs : List Char) : List Char :=
  if cs.take 2 = ['0', 'x'] ∨ cs.take 2 = ['0', 'X'] then cs.drop 2 else cs

/-- JS parseInt(s, 16): skip whitespace, optional sign, optional 0x/0X, then the
maximal hexadecimal digit run; NaN (modelled `none`) when no digit is found. -/
def parseInt16 (cs : List Char) : Option Int :=
  let t := cs.dropWhile Char.isWhitespace
  if t.head? = some '-' then (hexRun (strip0x t.tail)).map (fun n => -(n : Int))
  else if t.head? = some '+' then (hexRun (strip0x t.tail)).map (fun n => (n : Int))
  else (hexRun (strip0x t)).map (fun n => (n : Int))

/-- JS `n.toString(16)` (lowercase hex digits) padded to two digits
(`hex.length === 1 ? '0' + hex : hex` in the source). -/
def toHexByte (n : Nat) : List Char :=
  let h := Nat.toDigits 16 n
  if h.length == 1 then '0' :: h else h

/-- rgbToHex from the source: two hex digits per channel, leading '#', whole string
uppercased.  Math.round is the identity on the integer channels used throughout. -/
def rgbToHexL (r g b : Nat) : List Char :=
  ('#' :: (toHexByte r ++ toHexByte g ++ toHexByte b)).map Char.toUpper

def rgbToHex (r g b : Nat) : String := String.mk (rgbToHexL r g b)

/-- Result of hexToRgb: each channel is a JS parseInt result, `none` models NaN. -/
structure RGBParsed where
  r : Option Int
  g : Option Int
  b : Option Int
deriving DecidableEq, Repr

/-- JS `String.replace('#', '')` removes only the first '#', wherever it occurs. -/
def removeFirstHash : List Char → List Char
  | [] => []
  | '#' :: r => r
  | c :: r => c :: removeFirstHash r

/-- Three-digit shorthand expansion from the source: each character doubled. -/
def expand3 (cs : List Char) : List Char :=
  if cs.length == 3 then (cs.map (fun c => [c, c])).flatten else cs

/-- JS `substring a b` on the character list. -/
def substringL (cs : List Char) (a b : Nat) : List Char := (cs.drop a).take (b - a)

def hexToRgbL (cs : List Char) : RGBParsed :=
  let h := expand3 (removeFirstHash cs)
  ⟨parseInt16 (substringL h 0 2), parseInt16 (substringL h 2 4), parseInt16 (substringL h 4 6)⟩

def hexToRgb (s : String) : RGBParsed := hexToRgbL s.data

/-- The hash-stripped, shorthand-expanded remainder that hexToRgb actually parses. -/
def hexRemainder (s : String) : List Char := expand3 (removeFirstHash s.data)

/-- isValidHex from the source: regex `^#?([A-Fa-f0-9]{6}|[A-Fa-f0-9]{3})$` —
an optional single leading '#', then exactly 6 or exactly 3 hex digits. -/
def isValidHexL (cs : List Char) : Bool :=
  let t := if cs.head? = some '#' then cs.tail else cs
  (t.length == 6 || t.length == 3) && t.all isHexDigit

def isValidHex (s : String) : Bool := isValidHexL s.data

structure RGB where
  r : Nat
  g : Nat
  b : Nat
deriving DecidableEq, Repr

/-- Squared Euclidean distance between two RGB colors. -/
def colorDistSq (c1 c2 : RGB) : Int :=
  ((c1.r : Int) - (c2.r : Int)) ^ 2 + ((c1.g : Int) - (c2.g : Int)) ^ 2 +
    ((c1.b : Int) - (c2.b : Int)) ^ 2

/-- areColorsSimilar from the source computes `Math.sqrt (colorDistSq) < threshold`;
for integer channels and an integer threshold this equals `colorDistSq < threshold ^ 2`
(the equivalence against `Real.sqrt` is proved in the claim-C8 theorem below). -/
def areColorsSimilar (c1 c2 : RGB) (threshold : Nat) : Bool :=
  decide (colorDistSq c1 c2 < (threshold : Int) ^ 2)

structure Cluster where
  rgb : RGB
  count : Nat
deriving DecidableEq, Repr

/-- The clusterer state: a JS Map in insertion order, keyed by representative hex. -/
abbrev ColorMap := List (String × Cluster)

/-- ColorExtractor sets `this.similarityThreshold = 30` in its constructor. -/
def similarityThreshold : Nat := 30

/-- JS Map.set: replace in place when the key already exists, append otherwise. -/
def mapSet (m : ColorMap) (k : String) (v : Cluster) : ColorMap :=
  if m.any (fun p => p.1 == k) then
    m.map (fun p => if p.1 == k then (k, v) else p)
  else m ++ [(k, v)]

/-- The scan loop of addColor: bump the count of the first cluster whose
representative is similar; `none` when no cluster matches. -/
def addColorLoop (c : RGB) : ColorMap → Option ColorMap
  | [] => none
  | (k, d) :: rest =>
    if areColorsSimilar c d.rgb similarityThreshold then
      some ((k, ⟨d.rgb, d.count + 1⟩) :: rest)
    else
      (addColorLoop c rest).map (fun m => (k, d) :: m)

/-- ColorExtractor.addColor from the source. -/
def addColor (m : ColorMap) (r g b : Nat) : ColorMap :=
  let hex := rgbToHex r g b
  let rgb : RGB := ⟨r, g, b⟩
  match addColorLoop rgb m with
  | some m2 => m2
  | none => mapSet m hex ⟨rgb, 1⟩

/-- Feeding a sequence of observations into a freshly cleared cluster map. -/
def runClusterer (obs : List RGB) : ColorMap :=
  obs.foldl (fun m c => addColor m c.r c.g c.b) []

structure PaletteEntry where
  hex : String
  rgb : RGB
  count : Nat
  percentage : String
deriving DecidableEq, Repr

/-- One step of a stable descending insertion sort on the count field.  A later
entry is placed after every already-placed entry of greater or equal count. -/
def insertByCount (e : PaletteEntry) : List PaletteEntry → List PaletteEntry
  | [] => [e]
  | x :: xs => if x.count < e.count then e :: x :: xs else x :: insertByCount e xs

/-- sortColorsByUsage from the source: map the cluster entries to palette entries
(with the percentage placeholder the source fills in later) and sort descending
by count.  JS Array.sort is a stable sort and the comparator is
`(a, b) => b.count - a.count`; the stable insertion sort below produces the
identical order. -/
def sortColorsByUsage (m : ColorMap) : List PaletteEntry :=
  (m.map (fun p => ⟨p.1, p.2.rgb, p.2.count, "0"⟩)).foldl (fun acc e => insertByCount e acc) []

/-- Two-digit decimal rendering of a value below 100. -/
def pad2 (n : Nat) : String := (if n < 10 then "0" else "") ++ Nat.repr n

/-- Number.prototype.toFixed(2) for the nonnegative values produced here: round
to the nearest multiple of 0.01 (half away from zero) and print two decimals.
The argument is the exact value of the source's percentage expression; for the
magnitudes involved the double-precision computation rounds to the same string. -/
def toFixed2 (q : ℚ) : String :=
  let n : Nat := (⌊q * 100 + 1 / 2⌋).toNat
  Nat.repr (n / 100) ++ "." ++ pad2 (n % 100)

/-- `color.percentage = ((color.count / totalCount) * 100).toFixed(2)` from the source. -/
def assignPercentage (total : Nat) (e : PaletteEntry) : PaletteEntry :=
  ⟨e.hex, e.rgb, e.count, toFixed2 ((e.count : ℚ) / (total : ℚ) * 100)⟩

/-- The shared tail of the analyze* methods: sort the cluster map, total the
counts over the sorted array, annotate every entry with its percentage. -/
def finalizePalette (m : ColorMap) : List PaletteEntry :=
  let colors := sortColorsByUsage m
  let total := colors.foldl (fun s c => s + c.count) 0
  colors.map (assignPercentage total)

/-- analyzeImage, after pixel sampling: cluster, finalize, return the top 50. -/
def analyzeImagePipeline (obs : List RGB) : List PaletteEntry :=
  (finalizePalette (runClusterer obs)).take 50

/-- extractFromCurrentPage, after the DOM walk: cluster, finalize, top 30. -/
def extractFromCurrentPagePipeline (obs : List RGB) : List PaletteEntry :=
  (finalizePalette (runClusterer obs)).take 30

/-- analyzeSVG, after attribute parsing: cluster and finalize, no truncation. -/
def analyzeSVGPipeline (obs : List RGB) : List PaletteEntry :=
  finalizePalette (runClusterer obs)

/-- Value of a decimal digit string. -/
def decVal (cs : List Char) : Nat := cs.foldl (fun a c => a * 10 + (c.toNat - 48)) 0

/-- Numeric value denoted by a fixed-point decimal numeral such as "60.00". -/
def parseFixed2 (s : String) : ℚ :=
  let ip := s.data.takeWhile (fun c => c != '.')
  let fp := (s.data.dropWhile (fun c => c != '.')).drop 1
  (decVal ip : ℚ) + (decVal fp : ℚ) / (10 : ℚ) ^ fp.length

/-- Sum of the numeric values of the percentage fields of a palette. -/
def sumPct (pal : List PaletteEntry) : ℚ :=
  (pal.map (fun e => parseFixed2 e.percentage)).sum

/-- An entry of the presentation layer's currentColors list. -/
structure ResultColor where
  hex : String
  rgb : RGBParsed
  count : Nat
  percentage : String
deriving DecidableEq, Repr

def toUpperStr (s : String) : String := String.mk (s.data.map Char.toUpper)

/-- addSingleColor from the source: build the one-off entry (uppercased hex,
count 1, percentage "100.00"), do an exact-string dedup of its hex against the
current results, prepend when absent.  The Bool is the already-exists signal
(the source shows the already-in-the-list toast and leaves the list alone). -/
def addSingleColor (current : List ResultColor) (hex : String) : List ResultColor × Bool :=
  let color : ResultColor := ⟨toUpperStr hex, hexToRgb hex, 1, "100.00"⟩
  if current.any (fun c => c.hex == color.hex) then (current, true)
  else (color :: current, false)

/-- RGB channels in the 0-255 range of the data model. -/
def InRange (c : RGB) : Prop := c.r ≤ 255 ∧ c.g ≤ 255 ∧ c.b ≤ 255

instance : DecidablePred InRange := fun c => by unfold InRange; infer_instance

/-- Invariant of reachable cluster maps: every key is the canonical hex of its
representative and every representative is an in-range color. -/
def ClusterInv (m : ColorMap) : Prop :=
  ∀ p ∈ m, p.1 = rgbToHex p.2.rgb.r p.2.rgb.g p.2.rgb.b ∧ InRange p.2.rgb

def totalCount (m : ColorMap) : Nat := (m.map (fun p => p.2.count)).sum

/-- Fifty-one pairwise-dissimilar in-range colors: a 7×7 grid stepped by 40 in the red
and green channels, plus two colors displaced by 40 in blue. -/
def obs51 : List RGB :=
  ((List.range 49).map (fun i => ⟨40 * (i % 7), 40 * (i / 7), 0⟩)) ++ [⟨0, 0, 40⟩, ⟨40, 0, 40⟩]

/-- The rational value printed by toFixed2: the argument rounded to the nearest
multiple of 0.01, half away from zero. -/
def roundPct (q : ℚ) : ℚ := ((⌊q * 100 + 1 / 2⌋ : ℤ) : ℚ) / 100

/-- The validity predicate exactly as the specification words it: the string,
with an optional single leading '#', consists of exactly 3 or exactly 6
hexadecimal digits. -/
def SpecValidHex (cs : List Char) : Prop :=
  ∃ t : List Char, (cs = '#' :: t ∨ cs = t) ∧ (t.length = 3 ∨ t.length = 6) ∧
    ∀ c ∈ t, isHexDigit c = true


/-! ### Hex conversion lemmas -/

lemma toHexByte_upper_length : ∀ n : Nat, n < 256 → ((toHexByte n).map Char.toUpper).length = 2 := by
  decide

lemma parseInt16_toHexByte : ∀ n : Nat, n < 256 →
    parseInt16 ((toHexByte n).map Char.toUpper) = some (n : Int) := by
  decide

lemma removeFirstHash_hash (r : List Char) : removeFirstHash ('#' :: r) = r := by
  simp [removeFirstHash]

lemma roundtrip_aux (r g b : Nat) (hr : r < 256) (hg : g < 256) (hb : b < 256) :
    hexToRgbL (rgbToHexL r g b) = ⟨some (r : Int), some (g : Int), some (b : Int)⟩ := by
  have hAr := toHexByte_upper_length r hr
  have hAg := toHexByte_upper_length g hg
  have hAb := toHexByte_upper_length b hb
  set A := (toHexByte r).map Char.toUpper with hA
  set B := (toHexByte g).map Char.toUpper with hB
  set C := (toHexByte b).map Char.toUpper with hC
  have hhash : Char.toUpper '#' = '#' := by decide
  have h1 : rgbToHexL r g b = '#' :: (A ++ (B ++ C)) := by
    simp [rgbToHexL, hA, hB, hC, hhash, List.map_append, List.append_assoc]
  have h2 : removeFirstHash (rgbToHexL r g b) = A ++ (B ++ C) := by
    rw [h1, removeFirstHash_hash]
  have hlen : (A ++ (B ++ C)).length = 6 := by
    simp [hAr, hAg, hAb]
  have h3 : expand3 (A ++ (B ++ C)) = A ++ (B ++ C) := by
    simp [expand3, hlen]
  have hsub0 : substringL (A ++ (B ++ C)) 0 2 = A := by
    have := List.take_left A (B ++ C)
    rw [hAr] at this
    simpa [substringL] using this
  have hdrop2 : (A ++ (B ++ C)).drop 2 = B ++ C := by
    have := List.drop_left A (B ++ C)
    rwa [hAr] at this
  have hsub2 : substringL (A ++ (B ++ C)) 2 4 = B := by
    have := List.take_left B C
    rw [hAg] at this
    simpa [substringL, hdrop2] using this
  have hsub4 : substringL (A ++ (B ++ C)) 4 6 = C := by
    have hd4 : (A ++ (B ++ C)).drop 4 = C := by
      have h22 : (A ++ (B ++ C)).drop 4 = ((A ++ (B ++ C)).drop 2).drop 2 := by
        rw [List.drop_drop]
      rw [h22, hdrop2]
      have := List.drop_left B C
      rwa [hAg] at this
    have hc2 : C.take 2 = C := by
      rw [← hAb]
      exact List.take_length C
    simp [substringL, hd4, hc2]
  show hexToRgbL (rgbToHexL r g b) = _
  rw [hexToRgbL, h2, h3, hsub0, hsub2, hsub4,
    parseInt16_toHexByte r hr, parseInt16_toHexByte g hg, parseInt16_toHexByte b hb]

/-- Claim C2: converting in-range integer channels to hex and parsing the hex
back yields exactly the original channels (`none` would model a NaN channel;
all three channels parse successfully here). -/
theorem spec_C2 (r g b : Nat) (hr : r ≤ 255) (hg : g ≤ 255) (hb : b ≤ 255) :
    hexToRgb (rgbToHex r g b) = ⟨some (r : Int), some (g : Int), some (b : Int)⟩ := by
  have h := roundtrip_aux r g b (by omega) (by omega) (by omega)
  simpa [hexToRgb, rgbToHex] using h

theorem spec_C2_witness :
    hexToRgb (rgbToHex 255 0 171) = ⟨some 255, some 0, some 171⟩ := by
  have h := spec_C2 255 0 171 (by decide) (by decide) (by decide)
  simpa using h

/-! ### isValidHex (claim C9) -/

lemma isValidHexL_iff (cs : List Char) : isValidHexL cs = true ↔ SpecValidHex cs := by
  by_cases hh : cs.head? = some '#'
  · obtain ⟨t, rfl⟩ : ∃ t, cs = '#' :: t := by
      cases cs with
      | nil => simp at hh
      | cons a r =>
        simp only [List.head?, Option.some.injEq] at hh
        exact ⟨r, by rw [hh]⟩
    constructor
    · intro h
      simp only [isValidHexL, List.head?, if_pos rfl, List.tail_cons, Bool.and_eq_true,
        Bool.or_eq_true, beq_iff_eq, List.all_eq_true] at h
      exact ⟨t, Or.inl rfl, h.1.symm, h.2⟩
    · rintro ⟨t', ht', hlen, hhex⟩
      rcases ht' with ht' | ht'
      · obtain rfl : t = t' := by injection ht'
        simp only [isValidHexL, List.head?, if_pos rfl, List.tail_cons, Bool.and_eq_true,
          Bool.or_eq_true, beq_iff_eq, List.all_eq_true]
        exact ⟨hlen.symm, hhex⟩
      · have hmem : '#' ∈ t' := ht' ▸ List.mem_cons_self _ _
        have := hhex '#' hmem
        exact absurd this (by decide)
  · constructor
    · intro h
      simp only [isValidHexL, if_neg hh, Bool.and_eq_true, Bool.or_eq_true, beq_iff_eq,
        List.all_eq_true] at h
      exact ⟨cs, Or.inr rfl, h.1.symm, h.2⟩
    · rintro ⟨t', ht', hlen, hhex⟩
      rcases ht' with ht' | ht'
      · exact absurd (by rw [ht']; rfl) hh
      · subst ht'
        simp only [isValidHexL, if_neg hh, Bool.and_eq_true, Bool.or_eq_true, beq_iff_eq,
          List.all_eq_true]
        exact ⟨hlen.symm, hhex⟩

/-- Claim C9: isValidHex is true exactly on strings that, after an optional single
leading '#', are 3 or 6 hex digits; the spec's concrete accepts and rejects hold. -/
theorem spec_C9 :
    (∀ s : String, isValidHex s = true ↔ SpecValidHex s.data)
    ∧ isValidHex "#FFF" = true ∧ isValidHex "#ffffff" = true ∧ isValidHex "123ABC" = true
    ∧ isValidHex "#12G" = false ∧ isValidHex "1234567" = false ∧ isValidHex "" = false := by
  exact ⟨fun s => isValidHexL_iff s.data, by decide, by decide, by decide, by decide,
    by decide, by decide⟩

theorem spec_C9_witness : isValidHex "#0A0B0C" = true :=
  (spec_C9.1 "#0A0B0C").mpr ⟨['0', 'A', '0', 'B', '0', 'C'], Or.inl rfl, Or.inr rfl, by decide⟩

/-! ### hexToRgb on invalid inputs (claim C4) -/

lemma isHexDigit_not_ws (c : Char) (h : isHexDigit c = true) : c.isWhitespace = false := by
  cases hcw : c.isWhitespace
  · rfl
  · exfalso
    simp only [Char.isWhitespace, Bool.or_eq_true, decide_eq_true_eq] at hcw
    rcases hcw with ((h1 | h1) | h1) | h1 <;> (subst h1; exact absurd h (by decide))

lemma isHexDigit_ne (c : Char) (h : isHexDigit c = true) :
    c ≠ '-' ∧ c ≠ '+' ∧ c ≠ 'x' ∧ c ≠ 'X' := by
  refine ⟨?_, ?_, ?_, ?_⟩ <;> (rintro rfl; exact absurd h (by decide))

lemma parseInt16_hexhead (c1 c2 : Char) (r : List Char)
    (h1 : isHexDigit c1 = true) (h2 : isHexDigit c2 = true) :
    (parseInt16 (c1 :: c2 :: r)).isSome = true := by
  have hw := isHexDigit_not_ws c1 h1
  have hne1 := isHexDigit_ne c1 h1
  have hne2 := isHexDigit_ne c2 h2
  have hdw : (c1 :: c2 :: r).dropWhile Char.isWhitespace = c1 :: c2 :: r := by
    simp [List.dropWhile, hw]
  have hstrip : strip0x (c1 :: c2 :: r) = c1 :: c2 :: r := by
    have : (c1 :: c2 :: r).take 2 = [c1, c2] := rfl
    rw [strip0x, this]
    rw [if_neg]
    rintro (he | he) <;> (injection he with e1 e2; injection e2 with e2 _)
    · exact hne2.2.2.1 e2
    · exact hne2.2.2.2 e2
  obtain ⟨d, hd⟩ : ∃ d, hexDigitVal c1 = some d := by
    cases hv : hexDigitVal c1
    · rw [isHexDigit, hv] at h1; simp at h1
    · exact ⟨_, rfl⟩
  rw [parseInt16]
  simp only [hdw]
  rw [if_neg (by simp; exact fun e => hne1.1 e), if_neg (by simp; exact fun e => hne1.2.1 e)]
  rw [hstrip, hexRun]
  simp [hd]

lemma six_of_length (l : List Char) (h : 6 ≤ l.length) :
    ∃ a b c d e f r, l = a :: b :: c :: d :: e :: f :: r := by
  match l, h with
  | a :: b :: c :: d :: e :: f :: r, _ => exact ⟨a, b, c, d, e, f, r, rfl⟩

/-- Claim C4 (amended): hexToRgb performs no validation and signals no error.
Whenever the remainder opens with six hex digits — including invalid inputs
longer than six digits — every channel parses to a number (a partial, truncated
parse of the first six digits); validation is the caller's job via isValidHex. -/
theorem spec_C4 (s : String) (h6 : 6 ≤ (hexRemainder s).length)
    (hhex : ∀ c ∈ (hexRemainder s).take 6, isHexDigit c = true) :
    (hexToRgb s).r.isSome = true ∧ (hexToRgb s).g.isSome = true ∧
      (hexToRgb s).b.isSome = true := by
  obtain ⟨a, b, c, d, e, f, r, hL⟩ := six_of_length _ h6
  rw [hexRemainder] at hL
  have htake : (hexRemainder s).take 6 = [a, b, c, d, e, f] := by
    rw [hexRemainder, hL]; rfl
  rw [htake] at hhex
  have ha := hhex a (by simp)
  have hb := hhex b (by simp)
  have hc := hhex c (by simp)
  have hd := hhex d (by simp)
  have he := hhex e (by simp)
  have hf := hhex f (by simp)
  rw [hexToRgb, hexToRgbL]
  simp only [hL]
  have hs0 : substringL (a :: b :: c :: d :: e :: f :: r) 0 2 = [a, b] := rfl
  have hs2 : substringL (a :: b :: c :: d :: e :: f :: r) 2 4 = [c, d] := rfl
  have hs4 : substringL (a :: b :: c :: d :: e :: f :: r) 4 6 = [e, f] := rfl
  rw [hs0, hs2, hs4]
  exact ⟨parseInt16_hexhead a b [] ha hb, parseInt16_hexhead c d [] hc hd,
    parseInt16_hexhead e f [] he hf⟩

theorem spec_C4_witness :
    (hexToRgb "1234567").r.isSome = true ∧ (hexToRgb "1234567").g.isSome = true ∧
      (hexToRgb "1234567").b.isSome = true :=
  spec_C4 "1234567" (by decide) (by decide)

theorem spec_C4_counterexample :
    isValidHex "1234567" = false ∧ (hexRemainder "1234567").length = 7 ∧
      hexToRgb "1234567" = ⟨some 18, some 52, some 86⟩ := by decide

/-! ### Color similarity (claim C8) -/

lemma colorDistSq_nonneg (c1 c2 : RGB) : 0 ≤ colorDistSq c1 c2 := by
  unfold colorDistSq
  positivity

/-- Claim C8: areColorsSimilar is true iff the Euclidean distance is strictly
below the threshold; the spec's concrete cases hold, and a pair at distance
exactly the threshold is not similar. -/
theorem spec_C8 :
    (∀ (c1 c2 : RGB) (t : Nat),
        areColorsSimilar c1 c2 t = true ↔ Real.sqrt ((colorDistSq c1 c2 : ℤ) : ℝ) < (t : ℝ))
    ∧ areColorsSimilar ⟨0, 0, 0⟩ ⟨0, 0, 0⟩ 30 = true
    ∧ areColorsSimilar ⟨0, 0, 0⟩ ⟨255, 255, 255⟩ 30 = false
    ∧ ∀ (c1 c2 : RGB) (t : Nat), colorDistSq c1 c2 = (t : Int) ^ 2 →
        areColorsSimilar c1 c2 t = false := by
  refine ⟨?_, by decide, by decide, ?_⟩
  · intro c1 c2 t
    rw [areColorsSimilar, decide_eq_true_iff]
    have hd := colorDistSq_nonneg c1 c2
    constructor
    · intro h
      have ht : 0 < t := by
        rcases Nat.eq_zero_or_pos t with h0 | h0
        · subst h0
          norm_num at h
          omega
        · exact h0
      have htR : (0 : ℝ) < (t : ℝ) := by exact_mod_cast ht
      rw [Real.sqrt_lt' htR]
      exact_mod_cast h
    · intro h
      have htR : (0 : ℝ) < (t : ℝ) :=
        lt_of_le_of_lt (Real.sqrt_nonneg _) h
      have := (Real.sqrt_lt' htR).mp h
      exact_mod_cast this
  · intro c1 c2 t h
    rw [areColorsSimilar, h]
    simp

theorem spec_C8_witness : areColorsSimilar ⟨30, 0, 0⟩ ⟨0, 0, 0⟩ 30 = false :=
  spec_C8.2.2.2 ⟨30, 0, 0⟩ ⟨0, 0, 0⟩ 30 (by decide)

/-! ### Manual color addition (claim C7) -/

/-- Claim C7 (amended): adding a manual color is a no-op with an already-exists
signal iff the uppercased input hex equals an existing entry's hex string
exactly; otherwise the color is prepended with count 1 and percentage "100.00".
A differently-valued spelling of the same color (shorthand "#FFF" beside
"#FFFFFF") is not deduplicated, but a differently-cased spelling of the same
hex is (the input is uppercased before the exact-string comparison). -/
theorem spec_C7 (current : List ResultColor) (hex : String) :
    (toUpperStr hex ∈ current.map (fun c => c.hex) →
        addSingleColor current hex = (current, true))
    ∧ (toUpperStr hex ∉ current.map (fun c => c.hex) →
        addSingleColor current hex = (⟨toUpperStr hex, hexToRgb hex, 1, "100.00"⟩ :: current, false))
    ∧ addSingleColor [⟨"#FFFFFF", hexToRgb "#FFFFFF", 1, "100.00"⟩] "#FFF" =
        (⟨"#FFF", hexToRgb "#FFF", 1, "100.00"⟩ ::
          [⟨"#FFFFFF", hexToRgb "#FFFFFF", 1, "100.00"⟩], false) := by
  refine ⟨?_, ?_, by decide⟩
  · intro hmem
    obtain ⟨c, hc, he⟩ := List.mem_map.mp hmem
    have hany : current.any (fun c => c.hex == toUpperStr hex) = true := by
      rw [List.any_eq_true]
      exact ⟨c, hc, by simp [he]⟩
    simp [addSingleColor, hany]
  · intro hmem
    have hany : current.any (fun c => c.hex == toUpperStr hex) = false := by
      rw [← Bool.not_eq_true, List.any_eq_true]
      rintro ⟨c, hc, he⟩
      exact hmem (List.mem_map.mpr ⟨c, hc, by simpa using he⟩)
    simp [addSingleColor, hany]

theorem spec_C7_witness :
    addSingleColor [] "#AB12CD" =
      ([⟨toUpperStr "#AB12CD", hexToRgb "#AB12CD", 1, "100.00"⟩], false) :=
  (spec_C7 [] "#AB12CD").2.1 (by simp)

theorem spec_C7_counterexample :
    addSingleColor [⟨"#ABCDEF", hexToRgb "#ABCDEF", 1, "100.00"⟩] "#abcdef" =
      ([⟨"#ABCDEF", hexToRgb "#ABCDEF", 1, "100.00"⟩], true) ∧
      ("#abcdef" : String) ≠ "#ABCDEF" := by decide

/-! ### Clusterer lemmas (claims C1 and C10) -/

instance (m : ColorMap) : Decidable (ClusterInv m) := by
  unfold ClusterInv
  infer_instance

lemma areColorsSimilar_self (c : RGB) : areColorsSimilar c c similarityThreshold = true := by
  have h0 : colorDistSq c c = 0 := by
    unfold colorDistSq
    ring
  rw [areColorsSimilar, h0]
  decide

lemma rgbToHex_inj (c c' : RGB) (h : InRange c) (h' : InRange c')
    (he : rgbToHex c.r c.g c.b = rgbToHex c'.r c'.g c'.b) : c = c' := by
  obtain ⟨h1, h2, h3⟩ := h
  obtain ⟨h1', h2', h3'⟩ := h'
  have hl : rgbToHexL c.r c.g c.b = rgbToHexL c'.r c'.g c'.b := by
    have := congrArg String.data he
    simpa [rgbToHex] using this
  have e1 := roundtrip_aux c.r c.g c.b (by omega) (by omega) (by omega)
  have e2 := roundtrip_aux c'.r c'.g c'.b (by omega) (by omega) (by omega)
  rw [hl, e2] at e1
  simp only [RGBParsed.mk.injEq, Option.some.injEq, Nat.cast_inj] at e1
  cases c
  cases c'
  simp only [RGB.mk.injEq]
  exact ⟨e1.1.symm, e1.2.1.symm, e1.2.2.symm⟩

lemma addColorLoop_eq_none (c : RGB) (m : ColorMap) :
    addColorLoop c m = none ↔
      ∀ p ∈ m, areColorsSimilar c p.2.rgb similarityThreshold = false := by
  induction m with
  | nil => simp [addColorLoop]
  | cons p rest ih =>
    obtain ⟨k, d⟩ := p
    rw [addColorLoop]
    by_cases hs : areColorsSimilar c d.rgb similarityThreshold = true
    · simp [hs]
    · have hsf : areColorsSimilar c d.rgb similarityThreshold = false := by simpa using hs
      simp [hsf, Option.map_eq_none', ih, List.forall_mem_cons]

lemma addColorLoop_some (c : RGB) (m m2 : ColorMap) (h : addColorLoop c m = some m2) :
    totalCount m2 = totalCount m + 1 ∧
      m2.map (fun p => (p.1, p.2.rgb)) = m.map (fun p => (p.1, p.2.rgb)) ∧
      ∀ i : Nat, (m2[i]?).map (fun p => p.2.rgb) = (m[i]?).map (fun p => p.2.rgb) := by
  induction m generalizing m2 with
  | nil => simp [addColorLoop] at h
  | cons p rest ih =>
    obtain ⟨k, d⟩ := p
    rw [addColorLoop] at h
    by_cases hs : areColorsSimilar c d.rgb similarityThreshold = true
    · rw [if_pos hs] at h
      injection h with h
      subst h
      refine ⟨?_, by simp, ?_⟩
      · simp only [totalCount, List.map_cons, List.sum_cons]
        omega
      · intro i
        cases i <;> simp
    · rw [if_neg hs] at h
      obtain ⟨m', hm', rfl⟩ : ∃ m', addColorLoop c rest = some m' ∧ m2 = (k, d) :: m' := by
        cases hl : addColorLoop c rest with
        | none => rw [hl] at h; simp at h
        | some m' =>
          rw [hl] at h
          simp only [Option.map_some', Option.some.injEq] at h
          exact ⟨m', rfl, h.symm⟩
      obtain ⟨ht, hmap, hget⟩ := ih m' hm'
      refine ⟨?_, by simp [hmap], ?_⟩
      · simp only [totalCount, List.map_cons, List.sum_cons] at ht ⊢
        omega
      · intro i
        cases i with
        | zero => simp
        | succ j => simpa using hget j

lemma addColorLoop_first (c : RGB) (m : ColorMap) (i : Nat) (hi : i < m.length)
    (hsim : areColorsSimilar c (m.get ⟨i, hi⟩).2.rgb similarityThreshold = true)
    (hbefore : ∀ j (hj : j < i),
      areColorsSimilar c (m.get ⟨j, Nat.lt_trans hj hi⟩).2.rgb similarityThreshold = false) :
    addColorLoop c m =
      some (m.set i ((m.get ⟨i, hi⟩).1, ⟨(m.get ⟨i, hi⟩).2.rgb, (m.get ⟨i, hi⟩).2.count + 1⟩)) := by
  induction m generalizing i with
  | nil => simp at hi
  | cons p rest ih =>
    obtain ⟨k, d⟩ := p
    cases i with
    | zero =>
      have hsim' : areColorsSimilar c d.rgb similarityThreshold = true := hsim
      rw [addColorLoop, if_pos hsim']
      rfl
    | succ j =>
      have h0 : areColorsSimilar c d.rgb similarityThreshold = false :=
        hbefore 0 (Nat.succ_pos j)
      have hj' : j < rest.length := by
        simpa using Nat.lt_of_succ_lt_succ hi
      have hsim' : areColorsSimilar c (rest.get ⟨j, hj'⟩).2.rgb similarityThreshold = true := hsim
      have hbef' : ∀ j' (hj'' : j' < j),
          areColorsSimilar c (rest.get ⟨j', Nat.lt_trans hj'' hj'⟩).2.rgb similarityThreshold = false :=
        fun j' hj'' => hbefore (j' + 1) (Nat.succ_lt_succ hj'')
      rw [addColorLoop, if_neg (by simp [h0]), ih j hj' hsim' hbef']
      rfl

lemma fresh_key (m : ColorMap) (c : RGB) (hm : ClusterInv m) (hc : InRange c)
    (hns : ∀ p ∈ m, areColorsSimilar c p.2.rgb similarityThreshold = false) :
    m.any (fun p => p.1 == rgbToHex c.r c.g c.b) = false := by
  rw [← Bool.not_eq_true, List.any_eq_true]
  rintro ⟨p, hp, he⟩
  have he' : p.1 = rgbToHex c.r c.g c.b := by simpa using he
  obtain ⟨hkey, hrange⟩ := hm p hp
  have hpc : p.2.rgb = c := rgbToHex_inj _ _ hrange hc (by rw [← hkey, he'])
  have hself := areColorsSimilar_self c
  have hfalse := hns p hp
  rw [hpc] at hfalse
  rw [hfalse] at hself
  exact Bool.false_ne_true hself

lemma addColor_none_eq (m : ColorMap) (c : RGB) (hm : ClusterInv m) (hc : InRange c)
    (hns : ∀ p ∈ m, areColorsSimilar c p.2.rgb similarityThreshold = false) :
    addColor m c.r c.g c.b = m ++ [(rgbToHex c.r c.g c.b, ⟨c, 1⟩)] := by
  have hceta : (⟨c.r, c.g, c.b⟩ : RGB) = c := rfl
  have hl : addColorLoop c m = none := (addColorLoop_eq_none c m).mpr hns
  rw [addColor]
  simp only [hceta, hl]
  rw [mapSet, if_neg (by rw [fresh_key m c hm hc hns]; exact Bool.false_ne_true)]

lemma clusterInv_of_map_eq (m m2 : ColorMap)
    (h : m2.map (fun p => (p.1, p.2.rgb)) = m.map (fun p => (p.1, p.2.rgb)))
    (hm : ClusterInv m) : ClusterInv m2 := by
  intro p hp
  have hmem : (p.1, p.2.rgb) ∈ m2.map (fun p => (p.1, p.2.rgb)) := List.mem_map_of_mem _ hp
  rw [h] at hmem
  obtain ⟨q, hq, he⟩ := List.mem_map.mp hmem
  obtain ⟨hk, hr⟩ := hm q hq
  injection he with e1 e2
  constructor
  · rw [← e1, ← e2]
    exact hk
  · rw [← e2]
    exact hr

lemma addColor_step (m : ColorMap) (c : RGB) (hm : ClusterInv m) (hc : InRange c) :
    ClusterInv (addColor m c.r c.g c.b) ∧
      totalCount (addColor m c.r c.g c.b) = totalCount m + 1 := by
  have hceta : (⟨c.r, c.g, c.b⟩ : RGB) = c := rfl
  cases hl : addColorLoop c m with
  | some m2 =>
    have haddc : addColor m c.r c.g c.b = m2 := by
      rw [addColor]
      simp only [hceta, hl]
    rw [haddc]
    obtain ⟨ht, hmap, _⟩ := addColorLoop_some c m m2 hl
    exact ⟨clusterInv_of_map_eq m m2 hmap hm, ht⟩
  | none =>
    have hns := (addColorLoop_eq_none c m).mp hl
    rw [addColor_none_eq m c hm hc hns]
    constructor
    · intro p hp
      rcases List.mem_append.mp hp with hp | hp
      · exact hm p hp
      · simp only [List.mem_singleton] at hp
        subst hp
        exact ⟨rfl, hc⟩
    · simp [totalCount]

lemma runClusterer_aux (obs : List RGB) :
    ∀ m : ColorMap, ClusterInv m → (∀ c ∈ obs, InRange c) →
      ClusterInv (obs.foldl (fun m c => addColor m c.r c.g c.b) m) ∧
        totalCount (obs.foldl (fun m c => addColor m c.r c.g c.b) m) =
          totalCount m + obs.length := by
  induction obs with
  | nil =>
    intro m hm _
    exact ⟨hm, by simp⟩
  | cons c rest ih =>
    intro m hm hobs
    have hc : InRange c := hobs c (by simp)
    obtain ⟨h1, h2⟩ := addColor_step m c hm hc
    obtain ⟨h3, h4⟩ := ih (addColor m c.r c.g c.b) h1 (fun x hx => hobs x (by simp [hx]))
    rw [List.foldl_cons]
    refine ⟨h3, ?_⟩
    rw [h4, h2]
    simp only [List.length_cons]
    omega

/-- Claim C10: starting from a freshly cleared cluster map, a sequence of
in-range observations leaves the counts summing to the number of observations —
each observation is accounted for exactly once. -/
theorem spec_C10 (obs : List RGB) (h : ∀ c ∈ obs, InRange c) :
    totalCount (runClusterer obs) = obs.length := by
  have hrun := runClusterer_aux obs [] (by intro p hp; simp at hp) h
  simpa [runClusterer, totalCount] using hrun.2

theorem spec_C10_witness :
    totalCount (runClusterer [⟨10, 10, 10⟩, ⟨12, 12, 12⟩, ⟨200, 0, 0⟩]) = 3 := by
  have h := spec_C10 [⟨10, 10, 10⟩, ⟨12, 12, 12⟩, ⟨200, 0, 0⟩] (by decide)
  simpa using h

/-- Claim C1: addColor scans the clusters in insertion order; the first cluster
whose representative is similar to the observation has its count incremented
(the list is otherwise untouched); when none matches, a new cluster keyed by
rgbToHex with representative rgb and count 1 is appended; representatives of
existing clusters are never changed. -/
theorem spec_C1 (m : ColorMap) (c : RGB) (hm : ClusterInv m) (hc : InRange c) :
    ((∀ p ∈ m, areColorsSimilar c p.2.rgb similarityThreshold = false) →
        addColor m c.r c.g c.b = m ++ [(rgbToHex c.r c.g c.b, ⟨c, 1⟩)])
    ∧ (∀ i (hi : i < m.length),
        areColorsSimilar c (m.get ⟨i, hi⟩).2.rgb similarityThreshold = true →
        (∀ j (hj : j < i),
          areColorsSimilar c (m.get ⟨j, Nat.lt_trans hj hi⟩).2.rgb similarityThreshold = false) →
        addColor m c.r c.g c.b =
          m.set i ((m.get ⟨i, hi⟩).1, ⟨(m.get ⟨i, hi⟩).2.rgb, (m.get ⟨i, hi⟩).2.count + 1⟩))
    ∧ ∀ i (hi : i < m.length),
        ((addColor m c.r c.g c.b)[i]?).map (fun p => p.2.rgb) =
          some (m.get ⟨i, hi⟩).2.rgb := by
  have hceta : (⟨c.r, c.g, c.b⟩ : RGB) = c := rfl
  refine ⟨addColor_none_eq m c hm hc, ?_, ?_⟩
  · intro i hi hsim hbef
    have hfirst := addColorLoop_first c m i hi hsim hbef
    rw [addColor]
    simp only [hceta, hfirst]
  · intro i hi
    cases hl : addColorLoop c m with
    | some m2 =>
      have haddc : addColor m c.r c.g c.b = m2 := by
        rw [addColor]
        simp only [hceta, hl]
      rw [haddc]
      obtain ⟨_, _, hget⟩ := addColorLoop_some c m m2 hl
      rw [hget i, List.getElem?_eq_getElem hi]
      rfl
    | none =>
      have hns := (addColorLoop_eq_none c m).mp hl
      rw [addColor_none_eq m c hm hc hns]
      rw [List.getElem?_append_left hi, List.getElem?_eq_getElem hi]
      rfl

theorem spec_C1_witness :
    ClusterInv [("#0A0A0A", ⟨⟨10, 10, 10⟩, 1⟩)] ∧
      addColor [("#0A0A0A", ⟨⟨10, 10, 10⟩, 1⟩)] 200 200 200 =
        [("#0A0A0A", ⟨⟨10, 10, 10⟩, 1⟩)] ++ [(rgbToHex 200 200 200, ⟨⟨200, 200, 200⟩, 1⟩)] :=
  ⟨by decide,
    (spec_C1 [("#0A0A0A", ⟨⟨10, 10, 10⟩, 1⟩)] ⟨200, 200, 200⟩ (by decide) (by decide)).1
      (by decide)⟩

/-! ### Sorting lemmas (claims C5 and C6) -/

lemma mem_insertByCount (x e : PaletteEntry) (l : List PaletteEntry) :
    x ∈ insertByCount e l ↔ x = e ∨ x ∈ l := by
  induction l with
  | nil => simp [insertByCount]
  | cons y ys ih =>
    rw [insertByCount]
    by_cases h : y.count < e.count
    · rw [if_pos h]
      simp [List.mem_cons]
    · rw [if_neg h]
      simp [List.mem_cons, ih]
      tauto

lemma pairwise_insertByCount (e : PaletteEntry) (l : List PaletteEntry)
    (h : l.Pairwise (fun a b => b.count ≤ a.count)) :
    (insertByCount e l).Pairwise (fun a b => b.count ≤ a.count) := by
  induction l with
  | nil => simp [insertByCount]
  | cons x xs ih =>
    rw [List.pairwise_cons] at h
    obtain ⟨hx, hxs⟩ := h
    rw [insertByCount]
    by_cases hcmp : x.count < e.count
    · rw [if_pos hcmp, List.pairwise_cons]
      constructor
      · intro y hy
        rcases List.mem_cons.mp hy with rfl | hy
        · exact Nat.le_of_lt hcmp
        · exact le_trans (hx y hy) (Nat.le_of_lt hcmp)
      · rw [List.pairwise_cons]
        exact ⟨hx, hxs⟩
    · rw [if_neg hcmp, List.pairwise_cons]
      constructor
      · intro y hy
        rcases (mem_insertByCount y e xs).mp hy with rfl | hy
        · omega
        · exact hx y hy
      · exact ih hxs

lemma foldl_insert_pairwise (l : List PaletteEntry) :
    ∀ acc : List PaletteEntry, acc.Pairwise (fun a b => b.count ≤ a.count) →
      (l.foldl (fun acc e => insertByCount e acc) acc).Pairwise
        (fun a b => b.count ≤ a.count) := by
  induction l with
  | nil =>
    intro acc h
    simpa using h
  | cons e l ih =>
    intro acc h
    rw [List.foldl_cons]
    exact ih _ (pairwise_insertByCount e acc h)

lemma sortColorsByUsage_pairwise (m : ColorMap) :
    (sortColorsByUsage m).Pairwise (fun a b => b.count ≤ a.count) :=
  foldl_insert_pairwise _ [] List.Pairwise.nil

lemma insertByCount_perm (e : PaletteEntry) (l : List PaletteEntry) :
    (insertByCount e l).Perm (e :: l) := by
  induction l with
  | nil => simp [insertByCount]
  | cons x xs ih =>
    rw [insertByCount]
    by_cases h : x.count < e.count
    · rw [if_pos h]
    · rw [if_neg h]
      exact (ih.cons x).trans (List.Perm.swap e x xs)

lemma foldl_insert_perm (l : List PaletteEntry) :
    ∀ acc, (l.foldl (fun acc e => insertByCount e acc) acc).Perm (acc ++ l) := by
  induction l with
  | nil =>
    intro acc
    simp
  | cons e l ih =>
    intro acc
    rw [List.foldl_cons]
    refine (ih (insertByCount e acc)).trans ?_
    refine (List.Perm.append_right l (insertByCount_perm e acc)).trans ?_
    exact List.perm_middle.symm

lemma sortColorsByUsage_perm (m : ColorMap) :
    (sortColorsByUsage m).Perm (m.map (fun p => ⟨p.1, p.2.rgb, p.2.count, "0"⟩)) := by
  have h := foldl_insert_perm (m.map (fun p => ⟨p.1, p.2.rgb, p.2.count, "0"⟩)) []
  simpa [sortColorsByUsage] using h

lemma sortColorsByUsage_length (m : ColorMap) :
    (sortColorsByUsage m).length = m.length := by
  have h := (sortColorsByUsage_perm m).length_eq
  simpa using h

lemma finalizePalette_length (m : ColorMap) :
    (finalizePalette m).length = m.length := by
  simp [finalizePalette, sortColorsByUsage_length]

/-- Claim C6: the image palette has at most 50 entries, the DOM-scan palette at
most 30, the SVG palette is never truncated; the capped palettes are the take-N
prefix of the fully aggregated palette, which is sorted descending by count, so
they are the top-N after full aggregation. -/
theorem spec_C6 (obs : List RGB) :
    (analyzeImagePipeline obs).length ≤ 50
    ∧ (extractFromCurrentPagePipeline obs).length ≤ 30
    ∧ analyzeSVGPipeline obs = finalizePalette (runClusterer obs)
    ∧ analyzeImagePipeline obs = (analyzeSVGPipeline obs).take 50
    ∧ extractFromCurrentPagePipeline obs = (analyzeSVGPipeline obs).take 30
    ∧ (analyzeSVGPipeline obs).Pairwise (fun a b => b.count ≤ a.count) := by
  refine ⟨List.length_take_le _ _, List.length_take_le _ _, rfl, rfl, rfl, ?_⟩
  rw [analyzeSVGPipeline, finalizePalette]
  exact (sortColorsByUsage_pairwise _).map _
    (fun a b h => by simpa [assignPercentage] using h)

section RatEvalC5

attribute [local semireducible] Rat.add Rat.mul Rat.inv Rat.sub

/-- Claim C5: the observation sequence (10,10,10)×3 then (200,200,200)×2 yields
exactly two palette entries, counts 3 then 2, percentages "60.00" then "40.00". -/
theorem spec_C5 :
    finalizePalette (runClusterer
        [⟨10, 10, 10⟩, ⟨10, 10, 10⟩, ⟨10, 10, 10⟩, ⟨200, 200, 200⟩, ⟨200, 200, 200⟩]) =
      [⟨"#0A0A0A", ⟨10, 10, 10⟩, 3, "60.00"⟩, ⟨"#C8C8C8", ⟨200, 200, 200⟩, 2, "40.00"⟩]
    ∧ analyzeImagePipeline
        [⟨10, 10, 10⟩, ⟨10, 10, 10⟩, ⟨10, 10, 10⟩, ⟨200, 200, 200⟩, ⟨200, 200, 200⟩] =
      [⟨"#0A0A0A", ⟨10, 10, 10⟩, 3, "60.00"⟩, ⟨"#C8C8C8", ⟨200, 200, 200⟩, 2, "40.00"⟩] := by
  constructor <;> decide

end RatEvalC5

/-! ### Percentage arithmetic (claim C3) -/

lemma abs_roundPct_sub (q : ℚ) : |roundPct q - q| ≤ 1 / 200 := by
  rw [roundPct]
  have h1 : ((⌊q * 100 + 1 / 2⌋ : ℤ) : ℚ) ≤ q * 100 + 1 / 2 := Int.floor_le _
  have h2 : q * 100 + 1 / 2 - 1 < ((⌊q * 100 + 1 / 2⌋ : ℤ) : ℚ) := Int.sub_one_lt_floor _
  rw [abs_le]
  constructor <;> linarith

lemma repr_facts : ∀ k : Nat, k < 101 →
    ((Nat.repr k).data.all (fun c => c != '.')) = true ∧ decVal ((Nat.repr k).data) = k := by
  decide

lemma pad2_facts : ∀ k : Nat, k < 100 →
    ((pad2 k).data.all (fun c => c != '.')) = true ∧ (pad2 k).data.length = 2 ∧
      decVal ((pad2 k).data) = k := by
  decide

lemma takeWhile_append_all {p : Char → Bool} :
    ∀ {l1 : List Char}, l1.all p = true →
      ∀ l2, (l1 ++ l2).takeWhile p = l1 ++ l2.takeWhile p := by
  intro l1
  induction l1 with
  | nil =>
    intro _ l2
    simp
  | cons c cs ih =>
    intro h l2
    rw [List.all_cons, Bool.and_eq_true] at h
    simp [List.takeWhile_cons, h.1, ih h.2]

lemma dropWhile_append_all {p : Char → Bool} :
    ∀ {l1 : List Char}, l1.all p = true →
      ∀ l2, (l1 ++ l2).dropWhile p = l2.dropWhile p := by
  intro l1
  induction l1 with
  | nil =>
    intro _ l2
    simp
  | cons c cs ih =>
    intro h l2
    rw [List.all_cons, Bool.and_eq_true] at h
    simp [List.dropWhile_cons, h.1, ih h.2]

lemma parseFixed2_print (N : Nat) (hN : N ≤ 10050) :
    parseFixed2 (Nat.repr (N / 100) ++ "." ++ pad2 (N % 100)) = (N : ℚ) / 100 := by
  have hip := repr_facts (N / 100) (by omega)
  have hfp := pad2_facts (N % 100) (Nat.mod_lt _ (by omega))
  have hdata : (Nat.repr (N / 100) ++ "." ++ pad2 (N % 100)).data =
      (Nat.repr (N / 100)).data ++ '.' :: (pad2 (N % 100)).data := by
    rw [String.data_append, String.data_append, List.append_assoc]
    rfl
  rw [parseFixed2]
  simp only [hdata]
  rw [takeWhile_append_all hip.1, dropWhile_append_all hip.1]
  have hdot : ('.' != '.') = false := by decide
  rw [List.takeWhile_cons, List.dropWhile_cons]
  simp only [hdot, Bool.false_eq_true, if_false, List.append_nil, List.drop_succ_cons,
    List.drop_zero]
  rw [hip.2, hfp.2.2, hfp.2.1]
  have hNsplit : 100 * (N / 100) + N % 100 = N := Nat.div_add_mod N 100
  have hcast : ((N : ℚ)) = 100 * ((N / 100 : Nat) : ℚ) + ((N % 100 : Nat) : ℚ) := by
    exact_mod_cast hNsplit.symm
  rw [hcast]
  field_simp
  ring

lemma floor_toNat_le (q : ℚ) (h1 : q ≤ 100) : (⌊q * 100 + 1 / 2⌋).toNat ≤ 10050 := by
  have hq : q * 100 + 1 / 2 ≤ (10050 : ℚ) := by linarith
  have hf : ⌊q * 100 + 1 / 2⌋ ≤ 10050 := by
    calc ⌊q * 100 + 1 / 2⌋ ≤ ⌊(10050 : ℚ)⌋ := Int.floor_le_floor hq
      _ = 10050 := by exact_mod_cast Int.floor_intCast 10050
  omega

lemma parseFixed2_toFixed2 (q : ℚ) (h0 : 0 ≤ q) (h1 : q ≤ 100) :
    parseFixed2 (toFixed2 q) = roundPct q := by
  have hn0 : 0 ≤ ⌊q * 100 + 1 / 2⌋ := Int.floor_nonneg.mpr (by linarith)
  have hle := floor_toNat_le q h1
  have hcast : (((⌊q * 100 + 1 / 2⌋).toNat : ℚ)) = ((⌊q * 100 + 1 / 2⌋ : ℤ) : ℚ) := by
    exact_mod_cast congrArg (fun z : ℤ => (z : ℚ)) (Int.toNat_of_nonneg hn0)
  rw [roundPct]
  calc parseFixed2 (toFixed2 q)
      = (((⌊q * 100 + 1 / 2⌋).toNat : ℚ)) / 100 := parseFixed2_print _ hle
    _ = ((⌊q * 100 + 1 / 2⌋ : ℤ) : ℚ) / 100 := by rw [hcast]

lemma sum_abs_le {α : Type} (l : List α) (u v : α → ℚ) (ε : ℚ)
    (h : ∀ x ∈ l, |u x - v x| ≤ ε) :
    |(l.map u).sum - (l.map v).sum| ≤ l.length * ε := by
  induction l with
  | nil => simp
  | cons a l ih =>
    have ha := h a (by simp)
    have hl := ih (fun x hx => h x (by simp [hx]))
    simp only [List.map_cons, List.sum_cons, List.length_cons]
    push_cast
    have he : u a + (l.map u).sum - (v a + (l.map v).sum) =
        (u a - v a) + ((l.map u).sum - (l.map v).sum) := by ring
    calc |u a + (l.map u).sum - (v a + (l.map v).sum)|
        = |(u a - v a) + ((l.map u).sum - (l.map v).sum)| := by rw [he]
      _ ≤ |u a - v a| + |(l.map u).sum - (l.map v).sum| := abs_add _ _
      _ ≤ ε + l.length * ε := add_le_add ha hl
      _ = (l.length + 1) * ε := by ring

lemma foldl_count_sum (l : List PaletteEntry) :
    l.foldl (fun s c => s + c.count) 0 = (l.map (fun c => c.count)).sum := by
  suffices h : ∀ n, l.foldl (fun s c => s + c.count) n = n + (l.map (fun c => c.count)).sum by
    simpa using h 0
  induction l with
  | nil =>
    intro n
    simp
  | cons a l ih =>
    intro n
    simp only [List.foldl_cons, List.map_cons, List.sum_cons, ih]
    omega

lemma sum_pct_exact (l : List PaletteEntry) (T : ℕ) (hT : 0 < T)
    (hsum : (l.map (fun c => c.count)).sum = T) :
    (l.map (fun e => (e.count : ℚ) / (T : ℚ) * 100)).sum = 100 := by
  have hTQ : ((T : ℚ)) ≠ 0 := Nat.cast_ne_zero.mpr (by omega)
  have hfeq : (fun e : PaletteEntry => (e.count : ℚ) / (T : ℚ) * 100) =
      (fun e : PaletteEntry => ((e.count : ℚ)) * (100 / (T : ℚ))) := by
    funext e
    ring
  rw [hfeq, List.sum_map_mul_right]
  have hcast : (l.map (fun e => ((e.count : ℚ)))).sum = ((T : ℚ)) := by
    have h1 : l.map (fun e => ((e.count : ℚ))) =
        (l.map (fun c => c.count)).map (fun n : ℕ => (n : ℚ)) := by
      simp [List.map_map, Function.comp]
    rw [h1, ← Nat.cast_list_sum, hsum]
  rw [hcast]
  field_simp

/-- The untruncated palette's percentage fields sum to 100 up to the
independent per-entry rounding error of at most 1/200 each. -/
lemma finalize_sum_bound (obs : List RGB) (hne : obs ≠ []) (hin : ∀ c ∈ obs, InRange c) :
    |sumPct (finalizePalette (runClusterer obs)) - 100| ≤
      ((finalizePalette (runClusterer obs)).length : ℚ) * (1 / 200) := by
  set m := runClusterer obs with hm
  have hT : totalCount m = obs.length := by
    have hrun := runClusterer_aux obs [] (by intro p hp; simp at hp) hin
    simpa [runClusterer, totalCount, hm] using hrun.2
  have hTpos : 0 < totalCount m := by
    rw [hT]
    cases obs with
    | nil => exact absurd rfl hne
    | cons _ _ => simp
  set colors := sortColorsByUsage m with hcolors
  have hcount_sum : (colors.map (fun c => c.count)).sum = totalCount m := by
    have hp := (sortColorsByUsage_perm m).map (fun c => c.count)
    rw [← hcolors] at hp
    rw [hp.sum_eq, List.map_map]
    rfl
  have hfin : finalizePalette m = colors.map (assignPercentage (totalCount m)) := by
    rw [finalizePalette]
    rw [foldl_count_sum, hcount_sum]
  rw [hfin, sumPct, List.map_map]
  have hbound : ∀ e ∈ colors,
      |((fun e => parseFixed2 e.percentage) ∘ assignPercentage (totalCount m)) e -
        (fun e => (e.count : ℚ) / ((totalCount m : ℕ) : ℚ) * 100) e| ≤ 1 / 200 := by
    intro e he
    have hcle : e.count ≤ totalCount m := by
      rw [← hcount_sum]
      exact List.single_le_sum (fun x _ => Nat.zero_le x) _ (List.mem_map_of_mem _ he)
    have hq0 : (0 : ℚ) ≤ (e.count : ℚ) / ((totalCount m : ℕ) : ℚ) * 100 := by positivity
    have hq1 : (e.count : ℚ) / ((totalCount m : ℕ) : ℚ) * 100 ≤ 100 := by
      rw [div_mul_eq_mul_div, div_le_iff₀ (by exact_mod_cast hTpos)]
      have hc : ((e.count : ℚ)) ≤ ((totalCount m : ℕ) : ℚ) := by exact_mod_cast hcle
      nlinarith
    show |parseFixed2 ((assignPercentage (totalCount m) e).percentage) -
        (e.count : ℚ) / ((totalCount m : ℕ) : ℚ) * 100| ≤ 1 / 200
    have hps : (assignPercentage (totalCount m) e).percentage =
        toFixed2 ((e.count : ℚ) / ((totalCount m : ℕ) : ℚ) * 100) := rfl
    rw [hps, parseFixed2_toFixed2 _ hq0 hq1]
    exact abs_roundPct_sub _
  have hsum_exact := sum_pct_exact colors (totalCount m) hTpos hcount_sum
  have hfinal := sum_abs_le colors _ _ (1 / 200) hbound
  rw [hsum_exact] at hfinal
  simpa [List.length_map] using hfinal

/-- Claim C3 (amended): for every extraction whose aggregation yields at most
the source-defined cap's number of clusters the palette is not truncated and
its percentage fields sum to 100 up to the independent per-entry rounding error
of at most 1/200 each: unconditionally for the never-truncated SVG adapter, and
under the cluster-count cap (50 and 30) for the image and DOM-scan adapters.
(When more clusters than the cap exist, truncation drops their share and the
sum falls short of 100 — see the counterexample.) -/
theorem spec_C3 (obs : List RGB) (hne : obs ≠ []) (hin : ∀ c ∈ obs, InRange c) :
    (|sumPct (analyzeSVGPipeline obs) - 100| ≤
        ((analyzeSVGPipeline obs).length : ℚ) * (1 / 200))
    ∧ ((runClusterer obs).length ≤ 50 →
        analyzeImagePipeline obs = finalizePalette (runClusterer obs)
        ∧ |sumPct (analyzeImagePipeline obs) - 100| ≤
            ((analyzeImagePipeline obs).length : ℚ) * (1 / 200))
    ∧ ((runClusterer obs).length ≤ 30 →
        extractFromCurrentPagePipeline obs = finalizePalette (runClusterer obs)
        ∧ |sumPct (extractFromCurrentPagePipeline obs) - 100| ≤
            ((extractFromCurrentPagePipeline obs).length : ℚ) * (1 / 200)) := by
  have hbound := finalize_sum_bound obs hne hin
  have hfin_len : (finalizePalette (runClusterer obs)).length = (runClusterer obs).length :=
    finalizePalette_length _
  refine ⟨hbound, ?_, ?_⟩
  · intro hcap
    have htr : analyzeImagePipeline obs = finalizePalette (runClusterer obs) := by
      rw [analyzeImagePipeline]
      exact List.take_of_length_le (by rw [hfin_len]; exact hcap)
    rw [htr]
    exact ⟨rfl, hbound⟩
  · intro hcap
    have htr : extractFromCurrentPagePipeline obs = finalizePalette (runClusterer obs) := by
      rw [extractFromCurrentPagePipeline]
      exact List.take_of_length_le (by rw [hfin_len]; exact hcap)
    rw [htr]
    exact ⟨rfl, hbound⟩

section RatEvalC3

attribute [local semireducible] Rat.add Rat.mul Rat.inv Rat.sub

theorem spec_C3_witness :
    (|sumPct (analyzeSVGPipeline [⟨10, 10, 10⟩, ⟨200, 200, 200⟩]) - 100| ≤
        ((analyzeSVGPipeline [⟨10, 10, 10⟩, ⟨200, 200, 200⟩]).length : ℚ) * (1 / 200))
    ∧ (|sumPct (analyzeImagePipeline [⟨10, 10, 10⟩, ⟨200, 200, 200⟩]) - 100| ≤
        ((analyzeImagePipeline [⟨10, 10, 10⟩, ⟨200, 200, 200⟩]).length : ℚ) * (1 / 200))
    ∧ (|sumPct (extractFromCurrentPagePipeline [⟨10, 10, 10⟩, ⟨200, 200, 200⟩]) - 100| ≤
        ((extractFromCurrentPagePipeline [⟨10, 10, 10⟩, ⟨200, 200, 200⟩]).length : ℚ) * (1 / 200)) :=
  ⟨(spec_C3 [⟨10, 10, 10⟩, ⟨200, 200, 200⟩] (by decide) (by decide)).1,
    ((spec_C3 [⟨10, 10, 10⟩, ⟨200, 200, 200⟩] (by decide) (by decide)).2.1 (by decide)).2,
    ((spec_C3 [⟨10, 10, 10⟩, ⟨200, 200, 200⟩] (by decide) (by decide)).2.2 (by decide)).2⟩

theorem spec_C3_counterexample :
    analyzeImagePipeline obs51 ≠ [] ∧
      ¬ (|sumPct (analyzeImagePipeline obs51) - 100| ≤
          ((analyzeImagePipeline obs51).length : ℚ) * (1 / 200)) := by
  constructor <;> decide

end RatEvalC3
